import Mathlib

/-!
Shallow embedding of the staleness-detection and repair core of a
code-walkthrough editor extension: the hunk-based line remapper and the
clamping used by its callers (src/git/git.ts), the tiered staleness resolver
(`checkStaleness`), the repair engine (`repairWalkthrough`), and the loader
validation (`isValidStep` / `isValidWalkthrough`).

External effectful collaborators (the editor document store, the git
subprocess wrappers, the document-symbol provider, and the truncated-sha256
fingerprint primitive) are modelled as an explicit environment of pure
oracles; a thrown exception or a null result is modelled with `Option`.
-/

/-- Hunk header parsed from a zero-context unified diff, as produced by
`parseHunkHeaders` in git.ts: all four fields are parsed from digit groups of
the hunk-header regex, hence natural numbers. -/
structure LineMapping where
  oldStart : Nat
  oldCount : Nat
  newStart : Nat
  newCount : Nat
deriving DecidableEq

/-- Offset accumulation of `remapLineRange` (git.ts lines 92-104): walk the
hunks in order, adding `newCount - oldCount` for a hunk whose old extent ends
at or before the range start and likewise for a hunk overlapping the range,
and breaking at the first hunk starting past the range end. -/
def remapOffset (oldStart oldEnd : Int) : List LineMapping → Int
  | [] => 0
  | hunk :: rest =>
    if (hunk.oldStart : Int) + hunk.oldCount ≤ oldStart then
      ((hunk.newCount : Int) - hunk.oldCount) + remapOffset oldStart oldEnd rest
    else if (hunk.oldStart : Int) > oldEnd then 0
    else ((hunk.newCount : Int) - hunk.oldCount) + remapOffset oldStart oldEnd rest

/-- Embeds `remapLineRange` of git.ts. -/
def remapLineRange (oldStart oldEnd : Int) (mappings : List LineMapping) : Int × Int :=
  let offset := remapOffset oldStart oldEnd mappings
  (oldStart + offset, oldEnd + offset)

/-- Offset as described by the specification of the remapper (this definition
follows the words of the claim, to be compared with the source translation
`remapOffset`): every hunk before the first one whose `oldStart` strictly
exceeds the range end contributes `newCount - oldCount`, and later hunks
contribute nothing. -/
def remapOffsetSpec (oldEnd : Int) (mappings : List LineMapping) : Int :=
  ((mappings.takeWhile (fun h => decide ((h.oldStart : Int) ≤ oldEnd))).map
    (fun h => (h.newCount : Int) - h.oldCount)).sum

/-- Clamped start bound used after remapping by both the staleness resolver
and the repair engine: `Math.max(1, newStart)`. -/
def clampStart (newStart : Int) : Int := max 1 newStart

/-- Clamped end bound used after remapping by both call sites:
`Math.min(lineCount, Math.max(clampedStart, newEnd))`. -/
def clampEnd (lineCount clampedStart newEnd : Int) : Int :=
  min lineCount (max clampedStart newEnd)

/-- Editor text document, reduced to the sequence of its lines (a real editor
document always has at least one line). -/
structure TextDocument where
  lines : List String
deriving DecidableEq

/-- Embeds `doc.lineCount`. -/
def TextDocument.lineCount (d : TextDocument) : Nat := d.lines.length

/-- Embeds `doc.lineAt(n).text`, which throws (here: `none`) outside
`[0, lineCount)`. -/
def TextDocument.lineAt? (d : TextDocument) (n : Int) : Option String :=
  if 0 ≤ n then d.lines.get? n.toNat else none

/-- Embeds `doc.getText` over a whole-line range from line `a` to line `b`
(every call site passes character bounds `0` and end-of-line, so character
positions are not modelled). `vscode.Range` swaps reversed endpoints and
`getText` clamps the range into the document. -/
def TextDocument.getLines (d : TextDocument) (a b : Int) : String :=
  let lo := (min a b).toNat
  let hi := (max a b).toNat
  String.intercalate "\n" ((d.lines.drop lo).take (hi + 1 - lo))

/-- One step of a walkthrough (types.ts). Line numbers are 1-indexed and
inclusive; they are arbitrary integers here because the loader does not
enforce ordering or lower bounds on the pair. -/
structure WalkthroughStep where
  file : String
  lines : Int × Int
  symbol : Option String := none
  contentHash : Option String := none
  subtitle : String := ""
  duration : Option Int := none
deriving DecidableEq

/-- Walkthrough record (types.ts). -/
structure Walkthrough where
  title : String
  description : String
  commitSha : Option String := none
  steps : List WalkthroughStep
deriving DecidableEq

/-- Walkthrough file: a walkthrough plus the location it was loaded from. -/
structure WalkthroughFile where
  uri : String
  walkthrough : Walkthrough
deriving DecidableEq

/-- Document symbol as returned by the editor symbol provider: a name, the
0-indexed line of the start of its declaration range, and child symbols. -/
inductive DocumentSymbol where
  | node (name : String) (startLine : Nat) (children : List DocumentSymbol)

/-- Name of a document symbol. -/
def DocumentSymbol.name : DocumentSymbol → String
  | .node n _ _ => n

/-- Zero-indexed declaration line of a document symbol. -/
def DocumentSymbol.startLine : DocumentSymbol → Nat
  | .node _ s _ => s

/-- Children of a document symbol. -/
def DocumentSymbol.children : DocumentSymbol → List DocumentSymbol
  | .node _ _ c => c

/-- Pure oracle model of the effectful collaborators: the workspace, the git
subprocess wrappers of git.ts, the editor document store, the symbol
provider, and the truncated-sha256 fingerprint (the crypto primitive is
external, so the hash function is an environment parameter). `none` models a
thrown or null result of the corresponding call. -/
structure HostEnv where
  hasWorkspace : Bool
  headSha : Option String
  openDoc : String → Option TextDocument
  computeLineMappings : String → String → String → List LineMapping
  documentSymbols : String → Option (List DocumentSymbol)
  fileExistsAtCommit : String → String → Bool
  getFileRenames : String → String → String → Option String
  hashFn : String → String

/-- JavaScript truthiness of a nullable string: null, undefined and the empty
string are falsy. -/
def truthyStr : Option String → Bool
  | none => false
  | some s => !(s == "")

/-- Status tag of a staleness verdict (types.ts `StaleCheckResult.status`). -/
inductive StaleStatus where
  | fresh
  | drifted
  | missing
  | gitResolved
deriving DecidableEq

/-- Embeds `StaleCheckResult` of types.ts. -/
structure StaleCheckResult where
  stepIndex : Nat
  status : StaleStatus
  resolvedLines : Option (Int × Int) := none
  detail : Option String := none
deriving DecidableEq

/-- Embeds `checkContentHash` (types.ts): hash the text at the stored range,
clamped into the document, and compare it with the stored fingerprint
(a string compared against a possibly-absent stored hash). `none` models the
`doc.lineAt` throw on an out-of-range end line. -/
def checkContentHash (env : HostEnv) (doc : TextDocument) (step : WalkthroughStep) : Option Bool :=
  let startLine : Int := max 0 (step.lines.1 - 1)
  let endLine : Int := min ((doc.lineCount : Int) - 1) (step.lines.2 - 1)
  match doc.lineAt? endLine with
  | none => none
  | some _ =>
    let content := doc.getLines startLine endLine
    let hash := env.hashFn content
    some (some hash == step.contentHash)

/-- Embeds `canUseGit` of `checkStaleness`: both revision ids truthy and
distinct. -/
def canUseGit (env : HostEnv) (commitSha : Option String) : Bool :=
  truthyStr commitSha && truthyStr env.headSha && !(commitSha == env.headSha)

/-- Line mappings `checkStaleness` computes for a step file (the guard
`canUseGit` guarantees both revision ids are present at the call site). -/
def mappingsFor (env : HostEnv) (commitSha : Option String) (file : String) : List LineMapping :=
  env.computeLineMappings (commitSha.getD "") (env.headSha.getD "") file

/-- Embeds `findSymbolByName` (types.ts): depth-first search for the first
symbol whose name matches exactly, descending into children before moving to
the next sibling. -/
def findSymbolByName : List DocumentSymbol → String → Option DocumentSymbol
  | [], _ => none
  | .node n s c :: rest, name =>
    if n == name then some (.node n s c)
    else
      match findSymbolByName c name with
      | some child => some child
      | none => findSymbolByName rest name

/-- Embeds `findBySymbol` (types.ts): resolve the stored symbol name against
the symbol provider, preserving the original line span. A throw of the
symbol-provider command is caught inside and yields `none`. -/
def findBySymbol (env : HostEnv) (step : WalkthroughStep) : Option (Int × Int) :=
  if truthyStr step.symbol then
    match env.documentSymbols step.file with
    | none => none
    | some symbols =>
      match findSymbolByName symbols (step.symbol.getD "") with
      | some sym =>
        let lineSpan := step.lines.2 - step.lines.1
        some ((sym.startLine : Int) + 1, (sym.startLine : Int) + 1 + lineSpan)
      | none => none
  else none

/-- Verdict produced by the catch-all exception handler of the
`checkStaleness` loop. -/
def missingVerdict (i : Nat) (step : WalkthroughStep) : StaleCheckResult :=
  ⟨i, .missing, none, some ("File not found: " ++ step.file)⟩

/-- Embeds the git tier of `checkStaleness` entered when hunks are available
(types.ts lines 84-125): remap, clamp, rehash at the remapped range. `none`
models a `doc.lineAt` throw reaching the catch-all handler. -/
def gitTierVerdict (env : HostEnv) (doc : TextDocument) (step : WalkthroughStep)
    (i : Nat) (mappings : List LineMapping) : Option StaleCheckResult :=
  let p := remapLineRange step.lines.1 step.lines.2 mappings
  let clampedStart := clampStart p.1
  let clampedEnd := clampEnd (doc.lineCount : Int) clampedStart p.2
  match doc.lineAt? (clampedEnd - 1) with
  | none => none
  | some _ =>
    let remappedContent := doc.getLines (clampedStart - 1) (clampedEnd - 1)
    let remappedHash := env.hashFn remappedContent
    if some remappedHash == step.contentHash then
      some ⟨i, .gitResolved, some (clampedStart, clampedEnd),
        some ("Git resolved: lines shifted to " ++ toString clampedStart ++ "-"
          ++ toString clampedEnd)⟩
    else
      some ⟨i, .drifted, some (clampedStart, clampedEnd),
        some ("Git remapped to " ++ toString clampedStart ++ "-" ++ toString clampedEnd
          ++ ", but content also changed")⟩

/-- Embeds the symbol-fallback and last-resort tiers of `checkStaleness`
(types.ts lines 128-143). -/
def symbolTierVerdict (env : HostEnv) (step : WalkthroughStep) (i : Nat) : StaleCheckResult :=
  match findBySymbol env step with
  | some m =>
    ⟨i, .drifted, some m,
      some ("Lines shifted. Symbol \"" ++ step.symbol.getD "" ++ "\" found at "
        ++ toString m.1 ++ "-" ++ toString m.2)⟩
  | none =>
    ⟨i, .drifted, none,
      some "Content hash mismatch. Code may have changed since walkthrough was created."⟩

/-- Tiers of the `checkStaleness` loop that run before the git tier
(types.ts lines 66-75): `some v` means the verdict is settled there, `none`
means control falls through to the git and symbol tiers. -/
def preGitVerdict (env : HostEnv) (doc : TextDocument) (step : WalkthroughStep)
    (i : Nat) : Option StaleCheckResult :=
  if !truthyStr step.contentHash then some ⟨i, .fresh, none, none⟩
  else
    match checkContentHash env doc step with
    | none => some (missingVerdict i step)
    | some true => some ⟨i, .fresh, none, none⟩
    | some false => none

/-- Verdict of the git tier given the mappings obtained for the step, falling
through to the symbol tier when the mapping list is empty. -/
def stepVerdictWith (env : HostEnv) (doc : TextDocument) (step : WalkthroughStep)
    (i : Nat) (mappings : List LineMapping) : StaleCheckResult :=
  if mappings.length > 0 then
    (gitTierVerdict env doc step i mappings).getD (missingVerdict i step)
  else symbolTierVerdict env step i

/-- Cache-free semantics of one iteration of the `checkStaleness` loop
(`checkStalenessGo` below threads the per-file mappings cache of the source;
the cache only memoises `mappingsFor`, so the two agree, which is proved in
`checkStalenessGo_eq_resolveAll`). -/
def resolveStep (env : HostEnv) (sha : Option String) (i : Nat)
    (step : WalkthroughStep) : StaleCheckResult :=
  match env.openDoc step.file with
  | none => missingVerdict i step
  | some doc =>
    match preGitVerdict env doc step i with
    | some v => v
    | none =>
      if canUseGit env sha then
        stepVerdictWith env doc step i (mappingsFor env sha step.file)
      else symbolTierVerdict env step i

/-- Embeds the main loop of `checkStaleness` (types.ts lines 58-151),
threading the per-file mappings cache. -/
def checkStalenessGo (env : HostEnv) (sha : Option String) :
    Nat → List (String × List LineMapping) → List WalkthroughStep → List StaleCheckResult
  | _, _, [] => []
  | i, cache, step :: rest =>
    match env.openDoc step.file with
    | none => missingVerdict i step :: checkStalenessGo env sha (i + 1) cache rest
    | some doc =>
      match preGitVerdict env doc step i with
      | some v => v :: checkStalenessGo env sha (i + 1) cache rest
      | none =>
        if canUseGit env sha then
          match cache.find? (fun p => p.1 == step.file) with
          | some p => stepVerdictWith env doc step i p.2 :: checkStalenessGo env sha (i + 1) cache rest
          | none =>
            let m := mappingsFor env sha step.file
            stepVerdictWith env doc step i m
              :: checkStalenessGo env sha (i + 1) ((step.file, m) :: cache) rest
        else symbolTierVerdict env step i :: checkStalenessGo env sha (i + 1) cache rest

/-- Verdicts produced when no workspace is open (types.ts lines 42-49). -/
def missingAll : Nat → List WalkthroughStep → List StaleCheckResult
  | _, [] => []
  | i, _ :: rest => ⟨i, .missing, none, some "No workspace open"⟩ :: missingAll (i + 1) rest

/-- Embeds `checkStaleness` (types.ts lines 38-154). -/
def checkStaleness (env : HostEnv) (steps : List WalkthroughStep)
    (commitSha : Option String) : List StaleCheckResult :=
  if env.hasWorkspace then checkStalenessGo env commitSha 0 [] steps
  else missingAll 0 steps

/-- Cache-free rendering of the whole resolver loop, proved equal to the
cache-threading loop below. -/
def resolveAll (env : HostEnv) (sha : Option String) :
    Nat → List WalkthroughStep → List StaleCheckResult
  | _, [] => []
  | i, step :: rest => resolveStep env sha i step :: resolveAll env sha (i + 1) rest

/-- Embeds `RepairResult` of the repair engine. -/
structure RepairResult where
  repaired : Bool
  stepsFixed : Nat
  stepsUnresolvable : Nat
  walkthrough : Walkthrough
deriving DecidableEq

/-- Rename resolution at the top of the repair loop: adopt the renamed path
when the file existed at the old baseline and the rename detector reports
a rename (the rename detector never reports an empty path, as its regex
groups are nonempty). -/
def resolveRepairFile (env : HostEnv) (oldSha newSha : String)
    (step : WalkthroughStep) : String :=
  if env.fileExistsAtCommit oldSha step.file then
    match env.getFileRenames oldSha newSha step.file with
    | some renamed => renamed
    | none => step.file
  else step.file

/-- Embeds one iteration of the `repairWalkthrough` loop: returns the pushed
step, whether it was counted as fixed, whether it was counted as
unresolvable, and the updated mappings cache. `none` models an uncaught
exception (only the document open is inside a try block in the source, so a
`doc.lineAt` throw propagates). Note: the cache is keyed by the resolved
file, while the mappings are computed for the original `step.file`, exactly
as in the source. -/
def repairStep (env : HostEnv) (oldSha newSha : String)
    (cache : List (String × List LineMapping)) (step : WalkthroughStep) :
    Option (WalkthroughStep × Bool × Bool × List (String × List LineMapping)) :=
  let currentFile := resolveRepairFile env oldSha newSha step
  match env.openDoc currentFile with
  | none => some (step, false, true, cache)
  | some doc =>
    let endIdx : Int := min ((doc.lineCount : Int) - 1) (step.lines.2 - 1)
    match doc.lineAt? endIdx with
    | none => none
    | some _ =>
      let currentContent := doc.getLines (max 0 (step.lines.1 - 1)) endIdx
      let currentHash := env.hashFn currentContent
      if some currentHash == step.contentHash && currentFile == step.file then
        some (step, false, false, cache)
      else
        let found := cache.find? (fun p => p.1 == currentFile)
        let mappings :=
          match found with
          | some p => p.2
          | none => env.computeLineMappings oldSha newSha step.file
        let cache2 :=
          match found with
          | some _ => cache
          | none => (currentFile, mappings) :: cache
        if mappings.length > 0 then
          let p := remapLineRange step.lines.1 step.lines.2 mappings
          let clampedStart := clampStart p.1
          let clampedEnd := clampEnd (doc.lineCount : Int) clampedStart p.2
          match doc.lineAt? (clampedEnd - 1) with
          | none => none
          | some _ =>
            let remappedContent := doc.getLines (clampedStart - 1) (clampedEnd - 1)
            let remappedHash := env.hashFn remappedContent
            some ({ step with
                      file := currentFile
                      lines := (clampedStart, clampedEnd)
                      contentHash := some remappedHash }, true, false, cache2)
        else
          some ({ step with file := currentFile, contentHash := some currentHash },
                false, true, cache2)

/-- Embeds the repair loop, accumulating the rewritten steps and the two
counters. -/
def repairGo (env : HostEnv) (oldSha newSha : String) :
    List (String × List LineMapping) → List WalkthroughStep →
    Option (List WalkthroughStep × Nat × Nat)
  | _, [] => some ([], 0, 0)
  | cache, step :: rest =>
    match repairStep env oldSha newSha cache step with
    | none => none
    | some (s, fixedB, unresB, cache2) =>
      match repairGo env oldSha newSha cache2 rest with
      | none => none
      | some (ss, f, u) =>
        some (s :: ss, (if fixedB then 1 else 0) + f, (if unresB then 1 else 0) + u)

/-- Embeds `repairWalkthrough`. `none` models an uncaught exception escaping
the per-step loop. -/
def repairWalkthrough (env : HostEnv) (wf : WalkthroughFile) : Option RepairResult :=
  let walkthrough := wf.walkthrough
  let oldShaOpt := walkthrough.commitSha
  let newShaOpt := env.headSha
  if !truthyStr oldShaOpt || !truthyStr newShaOpt then
    some ⟨false, 0, walkthrough.steps.length, walkthrough⟩
  else
    let oldSha := oldShaOpt.getD ""
    let newSha := newShaOpt.getD ""
    if oldSha == newSha then
      some ⟨true, 0, 0, walkthrough⟩
    else if !env.hasWorkspace then
      some ⟨false, 0, walkthrough.steps.length, walkthrough⟩
    else
      match repairGo env oldSha newSha [] walkthrough.steps with
      | none => none
      | some r =>
        some ⟨decide (0 < r.2.1) || decide (r.2.2 = 0), r.2.1, r.2.2,
              { walkthrough with commitSha := some newSha, steps := r.1 }⟩

/-- Parsed JSON value as handed to the loader validation (numbers are
modelled as integers; the claims only involve integral line numbers). -/
inductive JsonValue where
  | jnull
  | jbool (b : Bool)
  | jnum (n : Int)
  | jstr (s : String)
  | jarr (elems : List JsonValue)
  | jobj (fields : List (String × JsonValue))

/-- Property access on a parsed JSON value: undefined when the field is
absent or the value is not an object. -/
def getField : JsonValue → String → Option JsonValue
  | .jobj fields, key => (fields.find? (fun p => p.1 == key)).map (fun p => p.2)
  | _, _ => none

/-- JavaScript `typeof x` equals string, on a possibly-absent value. -/
def isStringVal : Option JsonValue → Bool
  | some (.jstr _) => true
  | _ => false

/-- JavaScript `typeof x` equals number, on a possibly-absent value. -/
def isNumberVal : Option JsonValue → Bool
  | some (.jnum _) => true
  | _ => false

/-- Embeds `isValidStep` (loader.ts lines 5-18): `file` a string, `lines` a
2-element array of numbers, `subtitle` a string; no check on the ordering or
lower bound of the line pair. -/
def isValidStep (v : JsonValue) : Bool :=
  match v with
  | .jobj _ =>
    isStringVal (getField v "file") &&
    (match getField v "lines" with
     | some (.jarr xs) =>
       xs.length == 2 && isNumberVal (xs.get? 0) && isNumberVal (xs.get? 1)
     | _ => false) &&
    isStringVal (getField v "subtitle")
  | _ => false

/-- Embeds `isValidWalkthrough` (loader.ts lines 20-32). -/
def isValidWalkthrough (v : JsonValue) : Bool :=
  match v with
  | .jobj _ =>
    isStringVal (getField v "title") &&
    isStringVal (getField v "description") &&
    (match getField v "steps" with
     | some (.jarr steps) => decide (0 < steps.length) && steps.all isValidStep
     | _ => false)
  | _ => false

/-- Unfolding of the spec-side offset on a cons cell. -/
theorem remapOffsetSpec_cons (e : Int) (h : LineMapping) (t : List LineMapping) :
    remapOffsetSpec e (h :: t) =
      if (h.oldStart : Int) ≤ e then
        ((h.newCount : Int) - h.oldCount) + remapOffsetSpec e t
      else 0 := by
  unfold remapOffsetSpec
  by_cases hc : (h.oldStart : Int) ≤ e
  · simp [List.takeWhile_cons, hc]
  · simp [List.takeWhile_cons, hc]

/-- C1: for every old line range with start at most end, and every hunk list
ordered by ascending oldStart, `remapLineRange` returns both bounds shifted
by the offset described by the claim: each hunk before the first one whose
oldStart strictly exceeds the range end contributes `newCount - oldCount`
(hunks entirely before the range and hunks overlapping it alike), and every
hunk from the first one past the range end on contributes nothing. -/
theorem c1_remapLineRange_offset (s e : Int) (hs : s ≤ e) (ms : List LineMapping)
    (_hsorted : ms.Pairwise (fun a b => a.oldStart ≤ b.oldStart)) :
    remapLineRange s e ms = (s + remapOffsetSpec e ms, e + remapOffsetSpec e ms) := by
  clear _hsorted
  have hoff : remapOffset s e ms = remapOffsetSpec e ms := by
    induction ms with
    | nil => rfl
    | cons h t ih =>
      rw [remapOffsetSpec_cons]
      unfold remapOffset
      by_cases h1 : (h.oldStart : Int) + h.oldCount ≤ s
      · have h2 : (h.oldStart : Int) ≤ e := by
          have hnn : (0 : Int) ≤ (h.oldCount : Int) := Int.ofNat_nonneg _
          omega
        rw [if_pos h1, if_pos h2, ih]
      · by_cases h3 : (h.oldStart : Int) > e
        · rw [if_neg h1, if_pos h3, if_neg (by omega)]
        · rw [if_neg h1, if_neg h3, if_pos (by omega), ih]
  unfold remapLineRange
  rw [hoff]

/-- Witness for C1 at the concrete hunk of the claim: the range entirely
after the hunk shifts by the net three added lines, and the range entirely
before it is unchanged. -/
theorem c1_witness :
    remapLineRange 20 22 [⟨10, 2, 10, 5⟩] =
      (20 + remapOffsetSpec 22 [⟨10, 2, 10, 5⟩], 22 + remapOffsetSpec 22 [⟨10, 2, 10, 5⟩]) ∧
    remapLineRange 20 22 [⟨10, 2, 10, 5⟩] = (23, 25) ∧
    remapLineRange 1 3 [⟨10, 2, 10, 5⟩] = (1, 3) :=
  ⟨c1_remapLineRange_offset 20 22 (by decide) [⟨10, 2, 10, 5⟩] (by simp), by decide, by decide⟩

/-- C2 counterexample: the remapped range (10, 12), reachable from the stored
range (5, 7) through a single hunk adding five lines, clamped against a
current document of five lines, yields clampedStart 10 and clampedEnd 5:
the start bound is neither at most the line count nor at most the end bound,
so the clamping does not ensure bounds inside the document nor an ordered
pair. -/
theorem c2_counterexample :
    remapLineRange 5 7 [⟨1, 1, 1, 6⟩] = (10, 12) ∧
    clampStart 10 = 10 ∧
    clampEnd 5 (clampStart 10) 12 = 5 ∧
    ¬(clampStart 10 ≤ 5 ∧ clampStart 10 ≤ clampEnd 5 (clampStart 10) 12) := by
  decide

/-- C2 amended: for a current line count of at least one, the clamped end
bound always lies in `[1, lineCount]` and the clamped start bound is at least
one; both bounds lie in `[1, lineCount]` with start at most end exactly under
the additional assumption that the remapped start does not exceed the line
count (when it does, the clamped start keeps its value, exceeding both the
line count and the clamped end). -/
theorem c2_clamped_bounds (lineCount ns ne : Int) (hlc : 1 ≤ lineCount) :
    1 ≤ clampStart ns ∧
    1 ≤ clampEnd lineCount (clampStart ns) ne ∧
    clampEnd lineCount (clampStart ns) ne ≤ lineCount ∧
    (ns ≤ lineCount →
      clampStart ns ≤ lineCount ∧
      clampStart ns ≤ clampEnd lineCount (clampStart ns) ne) := by
  unfold clampStart clampEnd
  omega

/-- Witness for C2 amended at a five-line document and the remapped range
(2, 7). -/
theorem c2_witness :
    1 ≤ clampStart 2 ∧
    1 ≤ clampEnd 5 (clampStart 2) 7 ∧
    clampEnd 5 (clampStart 2) 7 ≤ 5 ∧
    ((2 : Int) ≤ 5 → clampStart 2 ≤ 5 ∧ clampStart 2 ≤ clampEnd 5 (clampStart 2) 7) :=
  c2_clamped_bounds 5 2 7 (by decide)

/-- The per-file mappings cache of the resolver loop only memoises
`mappingsFor`: starting from any consistent cache, the cache-threading loop
agrees with the cache-free rendering of the loop. -/
theorem checkStalenessGo_eq_resolveAll (env : HostEnv) (sha : Option String) :
    ∀ (steps : List WalkthroughStep) (i : Nat) (cache : List (String × List LineMapping)),
      (∀ p ∈ cache, p.2 = mappingsFor env sha p.1) →
      checkStalenessGo env sha i cache steps = resolveAll env sha i steps := by
  intro steps
  induction steps with
  | nil => intro i cache _; rfl
  | cons step rest ih =>
    intro i cache hc
    simp only [checkStalenessGo, resolveAll, resolveStep]
    split
    · rw [ih _ _ hc]
    · split
      · rw [ih _ _ hc]
      · split
        · split
          · rename_i doc _ _ p hfind
            have hb := List.find?_some hfind
            have h1 : p.1 = step.file := eq_of_beq hb
            have h2 : p.2 = mappingsFor env sha p.1 :=
              hc p (List.mem_of_find?_eq_some hfind)
            rw [h1] at h2
            rw [h2, ih _ _ hc]
          · have hinv : ∀ p ∈ (step.file, mappingsFor env sha step.file) :: cache,
                p.2 = mappingsFor env sha p.1 := by
              intro p hp
              rcases List.mem_cons.mp hp with h | h
              · rw [h]
              · exact hc p h
            rw [ih _ _ hinv]
        · rw [ih _ _ hc]

/-- Length of the cache-free resolver output. -/
theorem resolveAll_length (env : HostEnv) (sha : Option String) :
    ∀ (steps : List WalkthroughStep) (i : Nat),
      (resolveAll env sha i steps).length = steps.length := by
  intro steps
  induction steps with
  | nil => intro i; rfl
  | cons s rest ih => intro i; simp [resolveAll, ih (i + 1)]

/-- Indexing the cache-free resolver output. -/
theorem resolveAll_get? (env : HostEnv) (sha : Option String) :
    ∀ (steps : List WalkthroughStep) (i j : Nat),
      (resolveAll env sha i steps).get? j =
        (steps.get? j).map (fun s => resolveStep env sha (i + j) s) := by
  intro steps
  induction steps with
  | nil => intro i j; simp [resolveAll]
  | cons s rest ih =>
    intro i j
    cases j with
    | zero => simp [resolveAll]
    | succ j =>
      simp only [resolveAll, List.get?_cons_succ, ih (i + 1) j]
      have : i + 1 + j = i + (j + 1) := by omega
      rw [this]

/-- Length of the no-workspace verdict list. -/
theorem missingAll_length :
    ∀ (steps : List WalkthroughStep) (i : Nat), (missingAll i steps).length = steps.length := by
  intro steps
  induction steps with
  | nil => intro i; rfl
  | cons s rest ih => intro i; simp [missingAll, ih (i + 1)]

/-- Indexing the no-workspace verdict list. -/
theorem missingAll_get? :
    ∀ (steps : List WalkthroughStep) (i j : Nat),
      (missingAll i steps).get? j =
        (steps.get? j).map (fun _ => ⟨i + j, .missing, none, some "No workspace open"⟩) := by
  intro steps
  induction steps with
  | nil => intro i j; simp [missingAll]
  | cons s rest ih =>
    intro i j
    cases j with
    | zero => simp [missingAll]
    | succ j =>
      simp only [missingAll, List.get?_cons_succ, ih (i + 1) j]
      have : i + 1 + j = i + (j + 1) := by omega
      rw [this]

/-- Indexing the full resolver: each position of the output is a function of
the same position of the input alone. -/
theorem checkStaleness_get? (env : HostEnv) (steps : List WalkthroughStep)
    (sha : Option String) (j : Nat) :
    (checkStaleness env steps sha).get? j =
      (steps.get? j).map (fun s =>
        if env.hasWorkspace then resolveStep env sha j s
        else ⟨j, .missing, none, some "No workspace open"⟩) := by
  unfold checkStaleness
  cases hw : env.hasWorkspace with
  | true =>
    simp only [if_true]
    rw [checkStalenessGo_eq_resolveAll env sha steps 0 [] (by intro p hp; cases hp),
      resolveAll_get?]
    simp
  | false =>
    simp only [Bool.false_eq_true, if_false]
    rw [missingAll_get?]
    simp

/-- Length of the full resolver output. -/
theorem checkStaleness_length (env : HostEnv) (steps : List WalkthroughStep)
    (sha : Option String) :
    (checkStaleness env steps sha).length = steps.length := by
  unfold checkStaleness
  cases hw : env.hasWorkspace with
  | true =>
    simp only [if_true]
    rw [checkStalenessGo_eq_resolveAll env sha steps 0 [] (by intro p hp; cases hp),
      resolveAll_length]
  | false =>
    simp only [Bool.false_eq_true, if_false]
    rw [missingAll_length]

/-- The symbol and last-resort tiers tag the verdict with the step index. -/
theorem symbolTierVerdict_stepIndex (env : HostEnv) (step : WalkthroughStep) (i : Nat) :
    (symbolTierVerdict env step i).stepIndex = i := by
  unfold symbolTierVerdict
  cases findBySymbol env step <;> rfl

/-- The git tier tags the verdict with the step index. -/
theorem gitTierVerdict_stepIndex (env : HostEnv) (doc : TextDocument)
    (step : WalkthroughStep) (i : Nat) (m : List LineMapping) (r : StaleCheckResult)
    (h : gitTierVerdict env doc step i m = some r) : r.stepIndex = i := by
  simp only [gitTierVerdict] at h
  split at h
  · cases h
  · split at h <;> (injection h with h2; rw [← h2])

/-- The combined git-or-symbol tier tags the verdict with the step index. -/
theorem stepVerdictWith_stepIndex (env : HostEnv) (doc : TextDocument)
    (step : WalkthroughStep) (i : Nat) (m : List LineMapping) :
    (stepVerdictWith env doc step i m).stepIndex = i := by
  unfold stepVerdictWith
  split
  · cases hg : gitTierVerdict env doc step i m with
    | none => rfl
    | some r => exact gitTierVerdict_stepIndex env doc step i m r hg
  · exact symbolTierVerdict_stepIndex env step i

/-- The tiers before the git tier tag the verdict with the step index. -/
theorem preGitVerdict_stepIndex (env : HostEnv) (doc : TextDocument)
    (step : WalkthroughStep) (i : Nat) (v : StaleCheckResult)
    (h : preGitVerdict env doc step i = some v) : v.stepIndex = i := by
  simp only [preGitVerdict] at h
  split at h
  · cases h; rfl
  · split at h
    · cases h; rfl
    · cases h; rfl
    · cases h

/-- Every verdict of the cache-free per-step resolver carries the index it
was invoked with. -/
theorem resolveStep_stepIndex (env : HostEnv) (sha : Option String) (i : Nat)
    (step : WalkthroughStep) : (resolveStep env sha i step).stepIndex = i := by
  unfold resolveStep
  cases hdoc : env.openDoc step.file with
  | none => rfl
  | some doc =>
    show (match preGitVerdict env doc step i with
          | some v => v
          | none =>
            if canUseGit env sha then
              stepVerdictWith env doc step i (mappingsFor env sha step.file)
            else symbolTierVerdict env step i).stepIndex = i
    cases hpre : preGitVerdict env doc step i with
    | some v => exact preGitVerdict_stepIndex env doc step i v hpre
    | none =>
      show (if canUseGit env sha then
              stepVerdictWith env doc step i (mappingsFor env sha step.file)
            else symbolTierVerdict env step i).stepIndex = i
      cases canUseGit env sha
      · exact symbolTierVerdict_stepIndex env step i
      · exact stepVerdictWith_stepIndex env doc step i _

/-- With a fingerprint match at the stored range, the pre-git tiers settle on
a fresh verdict (also when no fingerprint is stored at all). -/
theorem preGitVerdict_of_match (env : HostEnv) (doc : TextDocument)
    (step : WalkthroughStep) (i : Nat)
    (hmatch : checkContentHash env doc step = some true) :
    preGitVerdict env doc step i = some ⟨i, .fresh, none, none⟩ := by
  unfold preGitVerdict
  split
  · rfl
  · rw [hmatch]

/-- C3: the resolver returns exactly one verdict per step, in input order
(the verdict at position j carries step index j); it never throws, modelled
by totality of `checkStaleness` with every per-step exception folded into
that step: a failure to open a step file produces a missing verdict for that
step, and the verdict at any position is a function of the input step at that
position alone, so every other step is unaffected. -/
theorem c3_one_verdict_per_step (env : HostEnv) (sha : Option String)
    (steps : List WalkthroughStep) :
    (checkStaleness env steps sha).length = steps.length ∧
    (∀ j r, (checkStaleness env steps sha).get? j = some r → r.stepIndex = j) ∧
    (∀ j step, env.hasWorkspace = true → steps.get? j = some step →
       env.openDoc step.file = none →
       (checkStaleness env steps sha).get? j = some (missingVerdict j step)) ∧
    (∀ (steps2 : List WalkthroughStep) (j : Nat), steps.get? j = steps2.get? j →
       (checkStaleness env steps sha).get? j = (checkStaleness env steps2 sha).get? j) := by
  refine ⟨checkStaleness_length env steps sha, ?_, ?_, ?_⟩
  · intro j r hr
    rw [checkStaleness_get? env steps sha j] at hr
    cases hs : steps.get? j with
    | none => rw [hs] at hr; cases hr
    | some s =>
      rw [hs] at hr
      simp only [Option.map_some'] at hr
      injection hr with hr
      rw [← hr]
      cases hw : env.hasWorkspace with
      | true => simp only [if_true]; exact resolveStep_stepIndex env sha j s
      | false => simp only [Bool.false_eq_true, if_false]
  · intro j step hw hs hopen
    rw [checkStaleness_get? env steps sha j, hs]
    simp only [Option.map_some', hw, if_true]
    unfold resolveStep
    rw [hopen]
  · intro steps2 j h
    rw [checkStaleness_get? env steps sha j, checkStaleness_get? env steps2 sha j, h]

/-- Concrete step used by the C3 witness that opens. -/
def step3a : WalkthroughStep := { file := "a.ts", lines := (1, 2) }

/-- Concrete step used by the C3 witness whose file does not open. -/
def step3b : WalkthroughStep := { file := "gone.ts", lines := (3, 4) }

/-- Concrete environment for the C3 witness: no file opens. -/
def env3 : HostEnv :=
  { hasWorkspace := true
    headSha := some "r2"
    openDoc := fun _ => none
    computeLineMappings := fun _ _ _ => []
    documentSymbols := fun _ => none
    fileExistsAtCommit := fun _ _ => false
    getFileRenames := fun _ _ _ => none
    hashFn := fun s => s }

/-- Witness for C3: in a two-step walkthrough whose second file does not
open, position 1 of the output is the missing verdict for that step. -/
theorem c3_witness :
    (checkStaleness env3 [step3a, step3b] (some "r1")).get? 1 =
      some (missingVerdict 1 step3b) :=
  (c3_one_verdict_per_step env3 (some "r1") [step3a, step3b]).2.2.1 1 step3b rfl rfl rfl

/-- C4: a step whose stored fingerprint matches the current content at its
stored (clamped) range resolves fresh, for every baseline revision id and in
particular when the baseline is set and differs from the environment head
revision: the match settles the verdict before the git tier, so the verdict
does not depend on the diff oracle (`env.computeLineMappings` is arbitrary
here). -/
theorem c4_hash_match_short_circuits (env : HostEnv) (sha : Option String)
    (steps : List WalkthroughStep) (i : Nat) (step : WalkthroughStep) (doc : TextDocument)
    (hw : env.hasWorkspace = true) (hstep : steps.get? i = some step)
    (hopen : env.openDoc step.file = some doc)
    (hmatch : checkContentHash env doc step = some true) :
    (checkStaleness env steps sha).get? i = some ⟨i, .fresh, none, none⟩ := by
  rw [checkStaleness_get? env steps sha i, hstep]
  simp only [Option.map_some', hw, if_true]
  unfold resolveStep
  rw [hopen]
  simp only [preGitVerdict_of_match env doc step i hmatch]

/-- Concrete document for the C4 witness. -/
def doc4 : TextDocument := ⟨["alpha", "beta", "gamma"]⟩

/-- Concrete step for the C4 witness, whose fingerprint matches lines 1-2. -/
def step4 : WalkthroughStep :=
  { file := "f.ts", lines := (1, 2), contentHash := some "alpha\nbeta" }

/-- Concrete environment for the C4 witness: head revision r2 differs from
the baseline r1 passed to the resolver, and the diff oracle would return a
nonempty hunk list if it were consulted. -/
def env4 : HostEnv :=
  { hasWorkspace := true
    headSha := some "r2"
    openDoc := fun f => if f == "f.ts" then some doc4 else none
    computeLineMappings := fun _ _ _ => [⟨1, 1, 1, 2⟩]
    documentSymbols := fun _ => none
    fileExistsAtCommit := fun _ _ => true
    getFileRenames := fun _ _ _ => none
    hashFn := fun s => s }

/-- Witness for C4: baseline r1, head r2, matching fingerprint, fresh. -/
theorem c4_witness :
    (checkStaleness env4 [step4] (some "r1")).get? 0 = some ⟨0, .fresh, none, none⟩ :=
  c4_hash_match_short_circuits env4 (some "r1") [step4] 0 step4 doc4 rfl rfl
    (by decide) (by decide)

/-- C5: when the walkthrough baseline revision equals the current head
revision (head revisions delivered by a successful rev-parse are nonempty),
repair is a no-op success: repaired true, zero fixed, zero unresolvable, and
the walkthrough returned unchanged. -/
theorem c5_noop_repair (env : HostEnv) (wf : WalkthroughFile) (s : String)
    (hsha : wf.walkthrough.commitSha = some s) (hhead : env.headSha = some s)
    (hne : s ≠ "") :
    repairWalkthrough env wf = some ⟨true, 0, 0, wf.walkthrough⟩ := by
  simp [repairWalkthrough, hsha, hhead, truthyStr, hne]

/-- Concrete step for the C5 witness. -/
def step5 : WalkthroughStep := { file := "a.ts", lines := (1, 3) }

/-- Concrete walkthrough file for the C5 witness, at baseline rev1. -/
def wf5 : WalkthroughFile :=
  ⟨"/w/.walkthrough/t.json", ⟨"t", "d", some "rev1", [step5]⟩⟩

/-- Concrete environment for the C5 witness: head is also rev1. -/
def env5 : HostEnv :=
  { hasWorkspace := true
    headSha := some "rev1"
    openDoc := fun _ => none
    computeLineMappings := fun _ _ _ => []
    documentSymbols := fun _ => none
    fileExistsAtCommit := fun _ _ => true
    getFileRenames := fun _ _ _ => none
    hashFn := fun s => s }

/-- Witness for C5 at a concrete walkthrough whose baseline equals head. -/
theorem c5_witness :
    repairWalkthrough env5 wf5 = some ⟨true, 0, 0, wf5.walkthrough⟩ :=
  c5_noop_repair env5 wf5 "rev1" rfl rfl (by decide)

/-- C6: whenever repair passes its preconditions (baseline present and
truthy, head obtainable and truthy, the two differ, workspace open) and the
per-step loop returns, the returned walkthrough carries the current head
revision as its baseline, regardless of the per-step outcomes. -/
theorem c6_repair_rewrites_baseline (env : HostEnv) (wf : WalkthroughFile)
    (o n : String) (res : RepairResult)
    (ho : wf.walkthrough.commitSha = some o) (hn : env.headSha = some n)
    (hot : o ≠ "") (hnt : n ≠ "") (hne : o ≠ n) (hw : env.hasWorkspace = true)
    (hres : repairWalkthrough env wf = some res) :
    res.walkthrough.commitSha = env.headSha := by
  rw [hn]
  simp [repairWalkthrough, ho, hn, truthyStr, hot, hnt, hne, hw] at hres
  cases hgo : repairGo env o n [] wf.walkthrough.steps with
  | none => rw [hgo] at hres; cases hres
  | some r =>
    rw [hgo] at hres
    cases hres with
    | _ => rfl

/-- A line inside the document bounds is readable. -/
theorem lineAt?_isSome (d : TextDocument) (n : Int) (h0 : 0 ≤ n)
    (hlt : n < (d.lineCount : Int)) : ∃ str, d.lineAt? n = some str := by
  unfold TextDocument.lineAt?
  rw [if_pos h0]
  unfold TextDocument.lineCount at hlt
  cases hget : d.lines.get? n.toNat with
  | none =>
    rw [List.get?_eq_none] at hget
    omega
  | some str => exact ⟨str, rfl⟩

/-- Comparing a present value against an absent one is false. -/
theorem some_beq_none {α : Type} [BEq α] (a : α) : (some a == none) = false := rfl

/-- C10: in the repair loop, a step with no stored fingerprint is never
classified as requiring no change: when the loop reaches the hash comparison
(the possibly renamed file opens and the stored end line is readable), the
comparison against the absent hash fails, so the step is always rewritten
with a freshly computed fingerprint — counted as fixed when hunks exist for
its path and as unresolvable otherwise — even when the content at the stored
range is unchanged; by contrast the staleness resolver marks any step with
no fingerprint fresh as soon as its file opens. -/
theorem c10_missing_fingerprint_always_rewritten (env : HostEnv) (oldSha newSha : String)
    (cache : List (String × List LineMapping)) (step : WalkthroughStep) (doc : TextDocument)
    (hnohash : step.contentHash = none)
    (hopen : env.openDoc (resolveRepairFile env oldSha newSha step) = some doc)
    (hmiss : cache.find? (fun p => p.1 == resolveRepairFile env oldSha newSha step) = none)
    (hl2 : 1 ≤ step.lines.2) (hdoc : 1 ≤ doc.lineCount) :
    (env.computeLineMappings oldSha newSha step.file = [] →
      repairStep env oldSha newSha cache step =
        some ({ step with
                  file := resolveRepairFile env oldSha newSha step
                  contentHash := some (env.hashFn (doc.getLines (max 0 (step.lines.1 - 1))
                    (min ((doc.lineCount : Int) - 1) (step.lines.2 - 1)))) },
              false, true,
              (resolveRepairFile env oldSha newSha step, []) :: cache)) ∧
    (env.computeLineMappings oldSha newSha step.file ≠ [] →
      ∃ s2 cache2, repairStep env oldSha newSha cache step = some (s2, true, false, cache2) ∧
        ∃ t, s2.contentHash = some (env.hashFn t)) ∧
    (∀ (env2 : HostEnv) (sha : Option String) (i : Nat) (d : TextDocument),
      env2.openDoc step.file = some d →
      resolveStep env2 sha i step = ⟨i, .fresh, none, none⟩) := by
  obtain ⟨str1, hline1⟩ :=
    lineAt?_isSome doc (min ((doc.lineCount : Int) - 1) (step.lines.2 - 1))
      (by omega) (by omega)
  refine ⟨?_, ?_, ?_⟩
  · intro hm
    simp only [repairStep, hopen, hline1, hnohash, hmiss, hm, some_beq_none,
      Bool.false_and, Bool.false_eq_true, if_false, List.length_nil, gt_iff_lt,
      lt_self_iff_false]
  · intro hm
    have hlen : 0 < (env.computeLineMappings oldSha newSha step.file).length :=
      List.length_pos.mpr hm
    obtain ⟨str2, hline2⟩ :=
      lineAt?_isSome doc
        (clampEnd (doc.lineCount : Int)
          (clampStart (remapLineRange step.lines.1 step.lines.2
            (env.computeLineMappings oldSha newSha step.file)).1)
          (remapLineRange step.lines.1 step.lines.2
            (env.computeLineMappings oldSha newSha step.file)).2 - 1)
        (by unfold clampStart clampEnd; omega)
        (by unfold clampStart clampEnd; omega)
    simp only [repairStep, hopen, hline1, hnohash, hmiss, some_beq_none,
      Bool.false_and, Bool.false_eq_true, if_false, gt_iff_lt, hlen, if_true, hline2]
    refine ⟨_, _, rfl, _, rfl⟩
  · intro env2 sha i d hopen2
    unfold resolveStep
    rw [hopen2]
    show (match preGitVerdict env2 d step i with
          | some v => v
          | none =>
            if canUseGit env2 sha then
              stepVerdictWith env2 d step i (mappingsFor env2 sha step.file)
            else symbolTierVerdict env2 step i) = ⟨i, .fresh, none, none⟩
    unfold preGitVerdict
    rw [hnohash]
    rfl

/-- Concrete document for the C10 witness. -/
def doc10 : TextDocument := ⟨["a", "b"]⟩

/-- Concrete step for the C10 witness: no stored fingerprint, content at the
stored range unchanged. -/
def step10 : WalkthroughStep := { file := "f.ts", lines := (1, 2) }

/-- Concrete environment for the C10 witness: the file opens, revisions
differ, and the diff oracle has no hunks for the path. -/
def env10 : HostEnv :=
  { hasWorkspace := true
    headSha := some "n"
    openDoc := fun _ => some doc10
    computeLineMappings := fun _ _ _ => []
    documentSymbols := fun _ => none
    fileExistsAtCommit := fun _ _ => false
    getFileRenames := fun _ _ _ => none
    hashFn := fun s => s }

/-- Witness for C10: with no hunks available, the fingerprint-free step is
rewritten with a freshly computed fingerprint and counted unresolvable. -/
theorem c10_witness :
    repairStep env10 "o" "n" [] step10 =
      some ({ step10 with
                file := resolveRepairFile env10 "o" "n" step10
                contentHash := some (env10.hashFn (doc10.getLines (max 0 (step10.lines.1 - 1))
                  (min ((doc10.lineCount : Int) - 1) (step10.lines.2 - 1)))) },
            false, true,
            (resolveRepairFile env10 "o" "n" step10, []) :: []) :=
  (c10_missing_fingerprint_always_rewritten env10 "o" "n" [] step10 doc10
    rfl rfl rfl (by decide) (by decide)).1 rfl

/-- Concrete document for the C7 evaluation: twenty one-character lines. -/
def docC7 : TextDocument := ⟨List.replicate 20 "x"⟩

/-- Concrete environment for the C7 evaluation: the step path a.ts was
renamed to b.ts between the revisions, and the diff oracle returns different
hunks for the two paths (net +3 lines for a.ts, net +1 line for b.ts). -/
def envC7 : HostEnv :=
  { hasWorkspace := true
    headSha := some "newrev"
    openDoc := fun f => if f == "b.ts" then some docC7 else none
    computeLineMappings := fun _ _ f =>
      if f == "a.ts" then [⟨1, 1, 1, 4⟩]
      else if f == "b.ts" then [⟨1, 1, 1, 2⟩]
      else []
    documentSymbols := fun _ => none
    fileExistsAtCommit := fun _ _ => true
    getFileRenames := fun _ _ f => if f == "a.ts" then some "b.ts" else none
    hashFn := fun s => s }

/-- Concrete step for the C7 evaluation, stored under the old path a.ts. -/
def stepC7 : WalkthroughStep := { file := "a.ts", lines := (10, 12), contentHash := some "stale" }

/-- C7 evaluation at the failing input: the renamed path b.ts is adopted for
the rewritten step and as the cache key, but the hunks used to remap the
range are those the diff oracle returns for the original path a.ts (shift
+3, lines 13-15), not those for the resolved path b.ts (shift +1, lines
11-13), because the loop calls the diff oracle with the original step path
while caching under the resolved path. -/
theorem c7_hunks_from_original_path :
    repairStep envC7 "oldrev" "newrev" [] stepC7 =
      some ({ stepC7 with
                file := "b.ts"
                lines := (13, 15)
                contentHash := some "x\nx\nx" },
            true, false, [("b.ts", [⟨1, 1, 1, 4⟩])]) ∧
    remapLineRange 10 12 (envC7.computeLineMappings "oldrev" "newrev" "a.ts") = (13, 15) ∧
    remapLineRange 10 12 (envC7.computeLineMappings "oldrev" "newrev" "b.ts") = (11, 13) ∧
    (13, 15) ≠ remapLineRange 10 12 (envC7.computeLineMappings "oldrev" "newrev" "b.ts") :=
  ⟨rfl, by decide, by decide, by decide⟩

/-- C8: a step that reaches the symbol fallback tier (stored fingerprint
present but mismatching, and no usable diff data: git resolution not
applicable or an empty hunk list) with a stored symbol name resolves through
the depth-first exact-name search `findSymbolByName`: when a symbol is found
the verdict is drifted with a range starting at its 1-indexed declaration
line and spanning exactly `lines.2 - lines.1` lines, with a detail naming
the symbol; when no symbol is found the verdict is drifted with no resolved
range. -/
theorem c8_symbol_fallback (env : HostEnv) (sha : Option String)
    (steps : List WalkthroughStep) (i : Nat) (step : WalkthroughStep) (doc : TextDocument)
    (syms : List DocumentSymbol) (name : String)
    (hw : env.hasWorkspace = true) (hstep : steps.get? i = some step)
    (hopen : env.openDoc step.file = some doc)
    (htr : truthyStr step.contentHash = true)
    (hmis : checkContentHash env doc step = some false)
    (hnogit : canUseGit env sha = false ∨ mappingsFor env sha step.file = [])
    (hsym : step.symbol = some name) (hname : name ≠ "")
    (hsyms : env.documentSymbols step.file = some syms) :
    (∀ sym, findSymbolByName syms name = some sym →
      (checkStaleness env steps sha).get? i =
        some ⟨i, .drifted,
          some ((sym.startLine : Int) + 1,
            (sym.startLine : Int) + 1 + (step.lines.2 - step.lines.1)),
          some ("Lines shifted. Symbol \"" ++ name ++ "\" found at "
            ++ toString ((sym.startLine : Int) + 1) ++ "-"
            ++ toString ((sym.startLine : Int) + 1 + (step.lines.2 - step.lines.1)))⟩) ∧
    (findSymbolByName syms name = none →
      (checkStaleness env steps sha).get? i =
        some ⟨i, .drifted, none,
          some "Content hash mismatch. Code may have changed since walkthrough was created."⟩) := by
  have hb : (name == "") = false := beq_eq_false_iff_ne.mpr hname
  have hres : resolveStep env sha i step = symbolTierVerdict env step i := by
    unfold resolveStep
    rw [hopen]
    have hpre : preGitVerdict env doc step i = none := by
      unfold preGitVerdict
      rw [htr]
      show (match checkContentHash env doc step with
            | none => some (missingVerdict i step)
            | some true => some ⟨i, .fresh, none, none⟩
            | some false => none) = none
      rw [hmis]
    show (match preGitVerdict env doc step i with
          | some v => v
          | none =>
            if canUseGit env sha then
              stepVerdictWith env doc step i (mappingsFor env sha step.file)
            else symbolTierVerdict env step i) = symbolTierVerdict env step i
    rw [hpre]
    show (if canUseGit env sha then
            stepVerdictWith env doc step i (mappingsFor env sha step.file)
          else symbolTierVerdict env step i) = symbolTierVerdict env step i
    rcases hnogit with hg | hm
    · rw [hg]; rfl
    · cases canUseGit env sha
      · rfl
      · show stepVerdictWith env doc step i (mappingsFor env sha step.file) =
          symbolTierVerdict env step i
        rw [hm]
        rfl
  constructor
  · intro sym hfound
    have hfb : findBySymbol env step =
        some ((sym.startLine : Int) + 1,
          (sym.startLine : Int) + 1 + (step.lines.2 - step.lines.1)) := by
      unfold findBySymbol
      rw [hsym]
      simp only [truthyStr, hb, Bool.not_false, if_true, hsyms, Option.getD_some, hfound]
    rw [checkStaleness_get? env steps sha i, hstep]
    simp only [Option.map_some', hw, if_true, hres]
    unfold symbolTierVerdict
    rw [hfb, hsym]
    simp only [Option.getD_some]
  · intro hnone
    have hfb : findBySymbol env step = none := by
      unfold findBySymbol
      rw [hsym]
      simp only [truthyStr, hb, Bool.not_false, if_true, hsyms, Option.getD_some, hnone]
    rw [checkStaleness_get? env steps sha i, hstep]
    simp only [Option.map_some', hw, if_true, hres]
    unfold symbolTierVerdict
    rw [hfb]

/-- Concrete document for the C8 witness. -/
def doc8 : TextDocument := ⟨["l1", "l2", "l3", "l4", "l5"]⟩

/-- Concrete symbol tree for the C8 witness: the target symbol is a child of
the first root symbol, so the depth-first search must descend before moving
to the next sibling. -/
def syms8 : List DocumentSymbol :=
  [.node "outer" 0 [.node "target" 4 []], .node "late" 9 []]

/-- Concrete step for the C8 witness: mismatching fingerprint and a stored
symbol name. -/
def step8 : WalkthroughStep :=
  { file := "f.ts", lines := (2, 4), symbol := some "target",
    contentHash := some "nomatch" }

/-- Concrete environment for the C8 witness: no head revision, so the git
tier is not applicable. -/
def env8 : HostEnv :=
  { hasWorkspace := true
    headSha := none
    openDoc := fun _ => some doc8
    computeLineMappings := fun _ _ _ => []
    documentSymbols := fun _ => some syms8
    fileExistsAtCommit := fun _ _ => false
    getFileRenames := fun _ _ _ => none
    hashFn := fun s => s }

/-- Witness for C8: the symbol target declared at 0-indexed line 4 resolves
the step to lines 5-7, preserving the original two-line span. -/
theorem c8_witness :
    (checkStaleness env8 [step8] (some "r1")).get? 0 =
      some ⟨0, .drifted, some (((4 : Nat) : Int) + 1, ((4 : Nat) : Int) + 1 + ((4 : Int) - 2)),
        some ("Lines shifted. Symbol \"" ++ "target" ++ "\" found at "
          ++ toString (((4 : Nat) : Int) + 1) ++ "-"
          ++ toString (((4 : Nat) : Int) + 1 + ((4 : Int) - 2)))⟩ ∧
    ("Lines shifted. Symbol \"" ++ "target" ++ "\" found at "
      ++ toString (((4 : Nat) : Int) + 1) ++ "-"
      ++ toString (((4 : Nat) : Int) + 1 + ((4 : Int) - 2))) =
      "Lines shifted. Symbol \"target\" found at 5-7" :=
  ⟨(c8_symbol_fallback env8 (some "r1") [step8] 0 step8 doc8 syms8 "target"
      rfl rfl rfl (by decide) (by decide) (Or.inl (by decide)) rfl (by decide) rfl).1
      (.node "target" 4 []) (by simp [syms8, findSymbolByName]),
    by decide⟩

/-- C9: the loader validity check does not enforce the line-range invariant:
a step whose lines field is the pair (5, 2), violating start at most end, or
the pair (0, 7), violating the lower bound of one, passes `isValidStep`, and
a walkthrough made only of such steps passes `isValidWalkthrough`. -/
theorem c9_loader_accepts_invalid_ranges :
    isValidStep (.jobj [("file", .jstr "a.ts"), ("lines", .jarr [.jnum 5, .jnum 2]),
      ("subtitle", .jstr "s")]) = true ∧
    isValidStep (.jobj [("file", .jstr "a.ts"), ("lines", .jarr [.jnum 0, .jnum 7]),
      ("subtitle", .jstr "s")]) = true ∧
    isValidWalkthrough (.jobj [("title", .jstr "t"), ("description", .jstr "d"),
      ("steps", .jarr
        [.jobj [("file", .jstr "a.ts"), ("lines", .jarr [.jnum 5, .jnum 2]),
          ("subtitle", .jstr "s")],
         .jobj [("file", .jstr "a.ts"), ("lines", .jarr [.jnum 0, .jnum 7]),
          ("subtitle", .jstr "s")]])]) = true ∧
    ¬((5 : Int) ≤ 2) ∧ ¬((1 : Int) ≤ 0) := by
  refine ⟨rfl, rfl, rfl, by decide, by decide⟩

/-- Concrete step for the C6 witness. -/
def step6 : WalkthroughStep := { file := "f.ts", lines := (1, 1) }

/-- Concrete walkthrough file for the C6 witness, at baseline o. -/
def wf6 : WalkthroughFile := ⟨"/w/.walkthrough/t.json", ⟨"t", "d", some "o", [step6]⟩⟩

/-- Concrete environment for the C6 witness: head n differs from the
baseline, the workspace is open, and the single step file does not open, so
the step stays unresolved. -/
def env6 : HostEnv :=
  { hasWorkspace := true
    headSha := some "n"
    openDoc := fun _ => none
    computeLineMappings := fun _ _ _ => []
    documentSymbols := fun _ => none
    fileExistsAtCommit := fun _ _ => false
    getFileRenames := fun _ _ _ => none
    hashFn := fun s => s }

/-- Outcome of the C6 witness run: repair fails on its only step, yet the
rewritten walkthrough carries the new baseline. -/
def res6 : RepairResult := ⟨false, 0, 1, ⟨"t", "d", some "n", [step6]⟩⟩

/-- Witness for C6: even with every step unresolved, the walkthrough is
rewritten to the current head revision. -/
theorem c6_witness : res6.walkthrough.commitSha = env6.headSha :=
  c6_repair_rewrites_baseline env6 wf6 "o" "n" res6 rfl rfl (by decide) (by decide)
    (by decide) rfl rfl
